import Mathlib

/-!
Verification of the divisibility-sequence tester (`main.py`).

The core of the program is three functions:
* `generate_sequence P Q x0 x1 n` — iteratively builds the terms
  `x_0 = x0`, `x_1 = x1`, `x_i = P*x_{i-1} - Q*x_{i-2}` for `2 ≤ i ≤ n`;
* `check_divisibility seq` — scans `m = 1..n` (skipping `seq[m] = 0`) and
  multiples `idx = m*k` for `k = 2..n//m`, reporting the first pair with
  `seq[idx] % seq[m] ≠ 0` (Python `%` is floor-mod, i.e. `Int.fmod`);
* `check_strong_divisibility seq` — scans pairs `1 ≤ m < k ≤ n` and reports
  the first pair with `gcd(seq[m], seq[k]) ≠ |seq[gcd(m,k)]|`
  (Python `math.gcd` is the non-negative gcd of absolute values, `Int.gcd`).

Lists are indexed with `List.getD · 0`; in-bounds-ness of every access is
proved separately.  Loops are embedded as structural recursions over the
explicit Python `range` lists (`List.range'`), preserving the scan order,
the zero-skip `continue` and the `idx > n` `break` of the source.
-/

namespace DivSeq

/-- The `for i in range(2, n+1)` loop body of `generate_sequence`:
`seq.append(P * seq[i-1] - Q * seq[i-2])`, run `fuel` times starting at
loop counter `i`. -/
def genLoop (P Q : Int) : Nat → Nat → List Int → List Int
  | 0, _, seq => seq
  | fuel + 1, i, seq =>
      genLoop P Q fuel (i + 1) (seq ++ [P * seq.getD (i - 1) 0 - Q * seq.getD (i - 2) 0])

/-- Embedding of `generate_sequence(P, Q, x0, x1, n)` from `main.py`: the first `n+1`
terms (indices `0` through `n`) of the recurrence. -/
def generate_sequence (P Q x0 x1 : Int) (n : Int) : List Int :=
  if n < 0 then []
  else if n = 0 then [x0]
  else genLoop P Q (n.toNat - 1) 2 [x0, x1]

/-- The mathematical recurrence `x_0 = x0`, `x_1 = x1`,
`x_{i+2} = P*x_{i+1} - Q*x_i`; used to state what `generate_sequence`
computes. -/
def recTerm (P Q x0 x1 : Int) : Nat → Int
  | 0 => x0
  | 1 => x1
  | i + 2 => P * recTerm P Q x0 x1 (i + 1) - Q * recTerm P Q x0 x1 i

/-- Inner loop of `check_divisibility`: `for k in range(2, n//m + 1)` with
the `if idx > n: break` guard and the test `seq[idx] % seq[m] != 0`
(Python `%` = `Int.fmod`).  The list argument is the materialised
`range(2, n//m + 1)`. -/
def innerScan (seq : List Int) (n m : Nat) : List Nat → Option (Nat × Nat)
  | [] => none
  | k :: rest =>
      let idx := m * k
      if n < idx then none
      else if (seq.getD idx 0).fmod (seq.getD m 0) ≠ 0 then some (m, idx)
      else innerScan seq n m rest

/-- Outer loop of `check_divisibility`: `for m in range(1, n+1)` with the
`if seq[m] == 0: continue` skip. -/
def outerScan (seq : List Int) (n : Nat) : List Nat → Option (Nat × Nat)
  | [] => none
  | m :: rest =>
      if seq.getD m 0 = 0 then outerScan seq n rest
      else
        match innerScan seq n m (List.range' 2 (n / m + 1 - 2)) with
        | some p => some p
        | none => outerScan seq n rest

/-- Embedding of `check_divisibility(seq)` from `main.py` (the `verbose` printing is
I/O-only and elided): returns `(satisfied, counterexample)`. -/
def check_divisibility (seq : List Int) : Bool × Option (Nat × Nat) :=
  let n := seq.length - 1
  match outerScan seq n (List.range' 1 n) with
  | some p => (false, some p)
  | none => (true, none)

/-- Inner loop of `check_strong_divisibility`: `for k in range(m+1, n+1)`,
testing `math.gcd(seq[m], seq[k]) != abs(seq[math.gcd(m, k)])`. -/
def strongInner (seq : List Int) (m : Nat) : List Nat → Option (Nat × Nat)
  | [] => none
  | k :: rest =>
      if Int.gcd (seq.getD m 0) (seq.getD k 0) ≠ (seq.getD (Nat.gcd m k) 0).natAbs
      then some (m, k)
      else strongInner seq m rest

/-- Outer loop of `check_strong_divisibility`: `for m in range(1, n+1)`. -/
def strongOuter (seq : List Int) (n : Nat) : List Nat → Option (Nat × Nat)
  | [] => none
  | m :: rest =>
      match strongInner seq m (List.range' (m + 1) (n + 1 - (m + 1))) with
      | some p => some p
      | none => strongOuter seq n rest

/-- Embedding of `check_strong_divisibility(seq)` from `main.py`. -/
def check_strong_divisibility (seq : List Int) : Bool × Option (Nat × Nat) :=
  let n := seq.length - 1
  match strongOuter seq n (List.range' 1 n) with
  | some p => (false, some p)
  | none => (true, none)

/-- A failing pair of the divisibility scan, as the spec describes it:
`m` is a tested divisor index (`1 ≤ m ≤ n`, `seq[m] ≠ 0`) and `m*k` a
tested multiple (`2 ≤ k`, `m*k ≤ n`) whose term `seq[m]` does not divide
(Python-mod test). -/
def divFails (seq : List Int) (n m k : Nat) : Prop :=
  1 ≤ m ∧ m ≤ n ∧ seq.getD m 0 ≠ 0 ∧ 2 ≤ k ∧ m * k ≤ n ∧
    (seq.getD (m * k) 0).fmod (seq.getD m 0) ≠ 0

instance (seq : List Int) (n m k : Nat) : Decidable (divFails seq n m k) := by
  unfold divFails; infer_instance

/-- A failing pair of the strong-divisibility scan: indices `1 ≤ m < k ≤ n`
with `gcd(seq[m], seq[k]) ≠ |seq[gcd(m,k)]|`. -/
def strongFails (seq : List Int) (n m k : Nat) : Prop :=
  1 ≤ m ∧ m < k ∧ k ≤ n ∧
    Int.gcd (seq.getD m 0) (seq.getD k 0) ≠ (seq.getD (Nat.gcd m k) 0).natAbs

instance (seq : List Int) (n m k : Nat) : Decidable (strongFails seq n m k) := by
  unfold strongFails; infer_instance

/-- The shared `first counterexample wins` shape of both outer loops:
return the first `some` produced along the index list. -/
def firstHit (f : Nat → Option (Nat × Nat)) : List Nat → Option (Nat × Nat)
  | [] => none
  | m :: rest =>
      match f m with
      | some p => some p
      | none => firstHit f rest

/-- The inner-loop body of `check_divisibility`, as the `Bool` predicate
the scan tests: does term `seq[m*k]` fail the Python-mod test against
`seq[m]`? -/
def divTest (seq : List Int) (m k : Nat) : Bool :=
  decide ((seq.getD (m * k) 0).fmod (seq.getD m 0) ≠ 0)

/-- The per-divisor step of the outer loop of `check_divisibility`:
`continue` on a zero term, otherwise run the inner multiples scan. -/
def divStep (seq : List Int) (n m : Nat) : Option (Nat × Nat) :=
  if seq.getD m 0 = 0 then none
  else innerScan seq n m (List.range' 2 (n / m + 1 - 2))

/-- The inner-loop body of `check_strong_divisibility`, as the `Bool`
predicate the scan tests. -/
def strongTest (seq : List Int) (m k : Nat) : Bool :=
  decide (Int.gcd (seq.getD m 0) (seq.getD k 0) ≠ (seq.getD (Nat.gcd m k) 0).natAbs)

/-- The per-`m` step of the outer loop of `check_strong_divisibility`. -/
def strongStep (seq : List Int) (n m : Nat) : Option (Nat × Nat) :=
  strongInner seq m (List.range' (m + 1) (n + 1 - (m + 1)))

/-- The inner loop of `check_divisibility` with the `idx > n` early-exit
branch removed; used to show that branch is never taken on the lists the
checker actually scans. -/
def innerScanNB (seq : List Int) (m : Nat) : List Nat → Option (Nat × Nat)
  | [] => none
  | k :: rest =>
      if (seq.getD (m * k) 0).fmod (seq.getD m 0) ≠ 0 then some (m, m * k)
      else innerScanNB seq m rest

/-- Python `%` instrumented against `ZeroDivisionError`: `error` exactly
when the divisor is zero (as the Python runtime would raise). -/
def pymodE (a b : Int) : Except Unit Int :=
  if b = 0 then Except.error () else Except.ok (a.fmod b)

/-- The inner loop of `check_divisibility` with every `%` routed through
`pymodE`, so a modulo-by-zero would surface as `Except.error`. -/
def innerScanE (seq : List Int) (n m : Nat) : List Nat → Except Unit (Option (Nat × Nat))
  | [] => Except.ok none
  | k :: rest =>
      if n < m * k then Except.ok none
      else
        match pymodE (seq.getD (m * k) 0) (seq.getD m 0) with
        | Except.error e => Except.error e
        | Except.ok r =>
            if r ≠ 0 then Except.ok (some (m, m * k)) else innerScanE seq n m rest

/-- The outer loop of `check_divisibility`, instrumented. -/
def outerScanE (seq : List Int) (n : Nat) : List Nat → Except Unit (Option (Nat × Nat))
  | [] => Except.ok none
  | m :: rest =>
      if seq.getD m 0 = 0 then outerScanE seq n rest
      else
        match innerScanE seq n m (List.range' 2 (n / m + 1 - 2)) with
        | Except.error e => Except.error e
        | Except.ok (some p) => Except.ok (some p)
        | Except.ok none => outerScanE seq n rest

/-- Embedding of `check_divisibility` instrumented against `ZeroDivisionError`:
returns `Except.error` iff the scan would ever compute `x % 0`. -/
def check_divisibilityE (seq : List Int) : Except Unit (Bool × Option (Nat × Nat)) :=
  match outerScanE seq (seq.length - 1) (List.range' 1 (seq.length - 1)) with
  | Except.error e => Except.error e
  | Except.ok (some p) => Except.ok (false, some p)
  | Except.ok none => Except.ok (true, none)

/-! ### Lemmas about the generator -/

lemma getD_map_range (f : Nat → Int) {i n : Nat} (h : i < n) :
    ((List.range n).map f).getD i 0 = f i := by
  rw [List.getD_eq_getElem?_getD, List.getElem?_map, List.getElem?_range h]
  rfl

lemma recTerm_step (P Q x0 x1 : Int) (j : Nat) :
    recTerm P Q x0 x1 (j + 2) =
      P * recTerm P Q x0 x1 (j + 1) - Q * recTerm P Q x0 x1 j := by
  simp [recTerm]

lemma genLoop_map (P Q x0 x1 : Int) :
    ∀ fuel j : Nat,
      genLoop P Q fuel (j + 2) ((List.range (j + 2)).map (recTerm P Q x0 x1)) =
        (List.range (j + 2 + fuel)).map (recTerm P Q x0 x1) := by
  intro fuel
  induction fuel with
  | zero => intro j; rfl
  | succ f ih =>
    intro j
    rw [genLoop]
    have h1 : ((List.range (j + 2)).map (recTerm P Q x0 x1)).getD (j + 2 - 1) 0 =
        recTerm P Q x0 x1 (j + 1) := by
      rw [show j + 2 - 1 = j + 1 from rfl]
      exact getD_map_range _ (by omega)
    have h2 : ((List.range (j + 2)).map (recTerm P Q x0 x1)).getD (j + 2 - 2) 0 =
        recTerm P Q x0 x1 j := by
      rw [show j + 2 - 2 = j from rfl]
      exact getD_map_range _ (by omega)
    rw [h1, h2, ← recTerm_step P Q x0 x1 j]
    have h4 : (List.range (j + 2)).map (recTerm P Q x0 x1) ++ [recTerm P Q x0 x1 (j + 2)] =
        (List.range (j + 3)).map (recTerm P Q x0 x1) := by
      conv_rhs => rw [show j + 3 = (j + 2) + 1 from rfl, List.range_succ]
      rw [List.map_append]
      rfl
    rw [h4]
    have h5 := ih (j + 1)
    rw [show j + 1 + 2 = j + 3 from by omega] at h5
    rw [h5, show j + 2 + (f + 1) = j + 3 + f from by omega]

lemma generate_eq_map_range (P Q x0 x1 : Int) {n : Int} (hn : 0 ≤ n) :
    generate_sequence P Q x0 x1 n =
      (List.range (n.toNat + 1)).map (recTerm P Q x0 x1) := by
  unfold generate_sequence
  rw [if_neg (by omega)]
  by_cases h0 : n = 0
  · rw [if_pos h0]
    subst h0
    rfl
  · rw [if_neg h0]
    have h1 : 1 ≤ n.toNat := by omega
    have h2 : (List.range 2).map (recTerm P Q x0 x1) = [x0, x1] := rfl
    have h3 := genLoop_map P Q x0 x1 (n.toNat - 1) 0
    rw [Nat.zero_add] at h3
    rw [h2] at h3
    rw [h3]
    congr 2
    omega

/-- C1: for every integer `P, Q, x0, x1` and every `n ≥ -1`,
`generate_sequence` returns `[]` for `n < 0`, `[x0]` for `n = 0`, and
otherwise a list of length `n+1` starting `x0, x1` whose later entries
obey `seq[i] = P*seq[i-1] - Q*seq[i-2]`. -/
theorem C1_generate_sequence_spec (P Q x0 x1 : Int) (n : Int) (_hn : -1 ≤ n) :
    (n < 0 → generate_sequence P Q x0 x1 n = []) ∧
    (n = 0 → generate_sequence P Q x0 x1 n = [x0]) ∧
    (0 ≤ n →
      (generate_sequence P Q x0 x1 n).length = n.toNat + 1 ∧
      (generate_sequence P Q x0 x1 n).getD 0 0 = x0 ∧
      (1 ≤ n → (generate_sequence P Q x0 x1 n).getD 1 0 = x1) ∧
      (∀ i : Nat, 2 ≤ i → i ≤ n.toNat →
        (generate_sequence P Q x0 x1 n).getD i 0 =
          P * (generate_sequence P Q x0 x1 n).getD (i - 1) 0 -
            Q * (generate_sequence P Q x0 x1 n).getD (i - 2) 0)) := by
  refine ⟨fun h => ?_, fun h => ?_, fun h => ?_⟩
  · unfold generate_sequence
    rw [if_pos h]
  · unfold generate_sequence
    rw [if_neg (by omega), if_pos h]
  · rw [generate_eq_map_range P Q x0 x1 h]
    refine ⟨by simp, ?_, fun h1 => ?_, fun i hi2 hin => ?_⟩
    · exact getD_map_range _ (by omega)
    · have : 1 ≤ n.toNat := by omega
      exact getD_map_range _ (by omega)
    · obtain ⟨j, rfl⟩ : ∃ j, i = j + 2 := ⟨i - 2, by omega⟩
      rw [show j + 2 - 1 = j + 1 from rfl, show j + 2 - 2 = j from rfl,
        getD_map_range _ (by omega), getD_map_range _ (by omega),
        getD_map_range _ (by omega)]
      exact recTerm_step P Q x0 x1 j

/-- Witness for C1 at `P=1, Q=-1, x0=0, x1=1, n=5` (Fibonacci):
the recurrence step at index 3. -/
theorem C1_witness :
    (generate_sequence 1 (-1) 0 1 5).getD 3 0 =
      1 * (generate_sequence 1 (-1) 0 1 5).getD (3 - 1) 0 -
        (-1) * (generate_sequence 1 (-1) 0 1 5).getD (3 - 2) 0 :=
  ((C1_generate_sequence_spec 1 (-1) 0 1 5 (by norm_num)).2.2
    (by norm_num)).2.2.2 3 (by norm_num) (by decide)

/-- C9: `generate_sequence` is deterministic — two calls with identical
arguments return identical sequences (the embedding is a pure function of
its arguments, matching the source, which reads no state besides them). -/
theorem C9_generate_deterministic (P Q x0 x1 : Int) (n : Int)
    (P' Q' x0' x1' : Int) (n' : Int)
    (hP : P = P') (hQ : Q = Q') (hx0 : x0 = x0') (hx1 : x1 = x1') (hn : n = n') :
    generate_sequence P Q x0 x1 n = generate_sequence P' Q' x0' x1' n' := by
  rw [hP, hQ, hx0, hx1, hn]

/-- Witness for C9: two identical Fibonacci calls agree. -/
theorem C9_witness :
    generate_sequence 1 (-1) 0 1 20 = generate_sequence 1 (-1) 0 1 20 :=
  C9_generate_deterministic 1 (-1) 0 1 20 1 (-1) 0 1 20 rfl rfl rfl rfl rfl

/-! ### Generic lemmas about the loop shapes -/

lemma mem_range'_iff {s len m : Nat} : m ∈ List.range' s len ↔ s ≤ m ∧ m < s + len := by
  rw [List.mem_range']
  constructor
  · rintro ⟨i, hi, rfl⟩
    omega
  · intro ⟨h1, h2⟩
    exact ⟨m - s, by omega, by omega⟩

lemma find?_range'_eq_some {p : Nat → Bool} {s len k : Nat}
    (h : (List.range' s len).find? p = some k) :
    p k = true ∧ s ≤ k ∧ k < s + len ∧ ∀ j, s ≤ j → j < k → p j = false := by
  induction len generalizing s with
  | zero => simp [List.range'_zero] at h
  | succ len ih =>
    rw [List.range'_succ] at h
    by_cases hs : p s
    · rw [List.find?_cons_of_pos _ hs] at h
      obtain rfl : s = k := Option.some.inj h
      exact ⟨hs, Nat.le_refl _, by omega, fun j h1 h2 => absurd h1 (by omega)⟩
    · rw [List.find?_cons_of_neg _ hs] at h
      obtain ⟨h1, h2, h3, h4⟩ := ih h
      refine ⟨h1, by omega, by omega, fun j hj1 hj2 => ?_⟩
      by_cases hj : j = s
      · subst hj
        simpa using hs
      · exact h4 j (by omega) hj2

lemma firstHit_range'_some {f : Nat → Option (Nat × Nat)} :
    ∀ {s len : Nat} {a : Nat × Nat}, firstHit f (List.range' s len) = some a →
      ∃ m, s ≤ m ∧ m < s + len ∧ f m = some a ∧ ∀ j, s ≤ j → j < m → f j = none := by
  intro s len
  induction len generalizing s with
  | zero => intro a h; simp [List.range'_zero, firstHit] at h
  | succ len ih =>
    intro a h
    rw [List.range'_succ, firstHit] at h
    cases hf : f s with
    | some p =>
      rw [hf] at h
      have h' : some p = some a := h
      obtain rfl := Option.some.inj h'
      exact ⟨s, Nat.le_refl _, by omega, hf, fun j h1 h2 => absurd h1 (by omega)⟩
    | none =>
      rw [hf] at h
      have h' : firstHit f (List.range' (s + 1) len) = some a := h
      obtain ⟨m, h1, h2, h3, h4⟩ := ih h'
      refine ⟨m, by omega, by omega, h3, fun j hj1 hj2 => ?_⟩
      by_cases hj : j = s
      · subst hj; exact hf
      · exact h4 j (by omega) hj2

lemma firstHit_range'_none {f : Nat → Option (Nat × Nat)} :
    ∀ {s len : Nat}, firstHit f (List.range' s len) = none →
      ∀ j, s ≤ j → j < s + len → f j = none := by
  intro s len
  induction len generalizing s with
  | zero => intro _ j h1 h2; omega
  | succ len ih =>
    intro h j h1 h2
    rw [List.range'_succ, firstHit] at h
    cases hf : f s with
    | some p =>
      rw [hf] at h
      have h' : some p = (none : Option (Nat × Nat)) := h
      exact absurd h' (by simp)
    | none =>
      rw [hf] at h
      have h' : firstHit f (List.range' (s + 1) len) = none := h
      by_cases hj : j = s
      · subst hj; exact hf
      · exact ih h' j (by omega) (by omega)

lemma firstHit_eq_none {f : Nat → Option (Nat × Nat)} :
    ∀ ms : List Nat, (∀ m ∈ ms, f m = none) → firstHit f ms = none := by
  intro ms
  induction ms with
  | nil => intro _; rfl
  | cons m rest ih =>
    intro h
    rw [firstHit, h m (by simp)]
    exact ih (fun m' hm' => h m' (by simp [hm']))

/-! ### Characterisation of `check_divisibility` -/

lemma innerScan_eq_find (seq : List Int) (n m : Nat) :
    ∀ ks : List Nat, (∀ k ∈ ks, m * k ≤ n) →
      innerScan seq n m ks = (ks.find? (divTest seq m)).map (fun k => (m, m * k)) := by
  intro ks
  induction ks with
  | nil => intro _; rfl
  | cons k rest ih =>
    intro h
    rw [innerScan]
    rw [if_neg (by exact Nat.not_lt.mpr (h k (by simp)))]
    by_cases hf : (seq.getD (m * k) 0).fmod (seq.getD m 0) ≠ 0
    · rw [if_pos hf, List.find?_cons_of_pos _ (by simpa [divTest] using hf)]
      rfl
    · rw [if_neg hf, List.find?_cons_of_neg _ (by simpa [divTest] using hf)]
      exact ih (fun k' hk' => h k' (by simp [hk']))

lemma outerScan_eq_firstHit (seq : List Int) (n : Nat) :
    ∀ ms : List Nat, outerScan seq n ms = firstHit (divStep seq n) ms := by
  intro ms
  induction ms with
  | nil => rfl
  | cons m rest ih =>
    rw [outerScan, firstHit]
    by_cases h0 : seq.getD m 0 = 0
    · rw [if_pos h0, show divStep seq n m = none from by rw [divStep, if_pos h0]]
      exact ih
    · rw [if_neg h0, show divStep seq n m =
        innerScan seq n m (List.range' 2 (n / m + 1 - 2)) from by rw [divStep, if_neg h0]]
      cases hin : innerScan seq n m (List.range' 2 (n / m + 1 - 2)) with
      | some p => rfl
      | none => exact ih

lemma le_div_iff_mul_le' {n m k : Nat} (hm : 1 ≤ m) : k ≤ n / m ↔ m * k ≤ n := by
  rw [Nat.mul_comm]
  exact Nat.le_div_iff_mul_le (by omega)

lemma mem_range'_div_iff {n m k : Nat} (hm : 1 ≤ m) :
    k ∈ List.range' 2 (n / m + 1 - 2) ↔ 2 ≤ k ∧ m * k ≤ n := by
  rw [mem_range'_iff]
  have hdiv := le_div_iff_mul_le' (n := n) (m := m) (k := k) hm
  constructor
  · intro ⟨h1, h2⟩
    exact ⟨h1, hdiv.mp (by omega)⟩
  · intro ⟨h1, h2⟩
    have := hdiv.mpr h2
    omega

lemma range'_div_bound {n m : Nat} (hm : 1 ≤ m) :
    ∀ k ∈ List.range' 2 (n / m + 1 - 2), m * k ≤ n := by
  intro k hk
  exact ((mem_range'_div_iff hm).mp hk).2

lemma divStep_none {seq : List Int} {n m : Nat} (hm : 1 ≤ m)
    (h : divStep seq n m = none) :
    ∀ k, 2 ≤ k → m * k ≤ n → seq.getD m 0 ≠ 0 →
      (seq.getD (m * k) 0).fmod (seq.getD m 0) = 0 := by
  intro k hk2 hkn hne
  unfold divStep at h
  rw [if_neg hne, innerScan_eq_find seq n m _ (range'_div_bound hm)] at h
  have hfind : (List.range' 2 (n / m + 1 - 2)).find? (divTest seq m) = none := by
    cases hf : (List.range' 2 (n / m + 1 - 2)).find? (divTest seq m) with
    | none => rfl
    | some k' => rw [hf] at h; exact absurd h (by simp)
  have := List.find?_eq_none.mp hfind k ((mem_range'_div_iff hm).mpr ⟨hk2, hkn⟩)
  simpa [divTest] using this

lemma divStep_some {seq : List Int} {n m : Nat} {a b : Nat} (hm : 1 ≤ m)
    (h : divStep seq n m = some (a, b)) :
    a = m ∧ seq.getD m 0 ≠ 0 ∧
      ∃ k, b = m * k ∧ 2 ≤ k ∧ m * k ≤ n ∧
        (seq.getD (m * k) 0).fmod (seq.getD m 0) ≠ 0 ∧
        ∀ k', 2 ≤ k' → k' < k → (seq.getD (m * k') 0).fmod (seq.getD m 0) = 0 := by
  unfold divStep at h
  by_cases hne : seq.getD m 0 = 0
  · rw [if_pos hne] at h
    exact absurd h (by simp)
  · rw [if_neg hne, innerScan_eq_find seq n m _ (range'_div_bound hm)] at h
    cases hf : (List.range' 2 (n / m + 1 - 2)).find? (divTest seq m) with
    | none => rw [hf] at h; exact absurd h (by simp)
    | some k =>
      rw [hf] at h
      obtain ⟨ha, hb⟩ : m = a ∧ m * k = b := by
        have := Option.some.inj h
        exact ⟨congrArg Prod.fst this, congrArg Prod.snd this⟩
      obtain ⟨h1, h2, h3, h4⟩ := find?_range'_eq_some hf
      refine ⟨ha.symm, hne, k, hb.symm, by omega, ?_, ?_, ?_⟩
      · have := (mem_range'_div_iff (n := n) hm (k := k)).mp (by rw [mem_range'_iff]; omega)
        exact this.2
      · simpa [divTest] using h1
      · intro k' hk'2 hk'k
        have := h4 k' (by omega) hk'k
        simpa [divTest] using this

lemma check_div_eq (seq : List Int) :
    check_divisibility seq =
      match outerScan seq (seq.length - 1) (List.range' 1 (seq.length - 1)) with
      | some p => (false, some p)
      | none => (true, none) := rfl

lemma check_div_true_iff (seq : List Int) :
    (check_divisibility seq).1 = true ↔ ∀ m k, ¬ divFails seq (seq.length - 1) m k := by
  rw [check_div_eq]
  cases ho : outerScan seq (seq.length - 1) (List.range' 1 (seq.length - 1)) with
  | none =>
    constructor
    · intro _ m k hf
      obtain ⟨h1, h2, h3, h4, h5, h6⟩ := hf
      have hfh : firstHit (divStep seq (seq.length - 1))
          (List.range' 1 (seq.length - 1)) = none := by
        rw [← outerScan_eq_firstHit]
        exact ho
      have hstep : divStep seq (seq.length - 1) m = none :=
        firstHit_range'_none hfh m h1 (by omega)
      exact h6 (divStep_none h1 hstep k h4 h5 h3)
    · intro _
      rfl
  | some p =>
    obtain ⟨a, b⟩ := p
    constructor
    · intro hfalse
      exact absurd (show false = true from hfalse) (by simp)
    · intro hall
      exfalso
      have hfh : firstHit (divStep seq (seq.length - 1))
          (List.range' 1 (seq.length - 1)) = some (a, b) := by
        rw [← outerScan_eq_firstHit]
        exact ho
      obtain ⟨m, hm1, hm2, hstep, _⟩ := firstHit_range'_some hfh
      obtain ⟨ha, hne, k, hb, hk2, hkn, hkf, _⟩ := divStep_some hm1 hstep
      exact hall m k ⟨hm1, by omega, hne, hk2, hkn, hkf⟩

lemma check_div_shape (seq : List Int) :
    (check_divisibility seq).1 = true ↔ (check_divisibility seq).2 = none := by
  rw [check_div_eq]
  cases ho : outerScan seq (seq.length - 1) (List.range' 1 (seq.length - 1)) with
  | none => exact Iff.intro (fun _ => rfl) (fun _ => rfl)
  | some p =>
    exact Iff.intro (fun h => absurd (show false = true from h) (by simp))
      (fun h => absurd (show some p = none from h) (by simp))

lemma check_div_some_spec (seq : List Int) (a b : Nat)
    (h : (check_divisibility seq).2 = some (a, b)) :
    divFails seq (seq.length - 1) a (b / a) ∧ b = a * (b / a) ∧
      ∀ m' k', divFails seq (seq.length - 1) m' k' → a < m' ∨ (a = m' ∧ b / a ≤ k') := by
  rw [check_div_eq] at h
  cases ho : outerScan seq (seq.length - 1) (List.range' 1 (seq.length - 1)) with
  | none =>
    rw [ho] at h
    exact absurd (show (none : Option (Nat × Nat)) = some (a, b) from h) (by simp)
  | some p =>
    rw [ho] at h
    have h' : some p = some (a, b) := h
    obtain rfl := Option.some.inj h'
    have hfh : firstHit (divStep seq (seq.length - 1))
        (List.range' 1 (seq.length - 1)) = some (a, b) := by
      rw [← outerScan_eq_firstHit]
      exact ho
    obtain ⟨m, hm1, hm2, hstep, hearlier⟩ := firstHit_range'_some hfh
    obtain ⟨ha, hne, k, hb, hk2, hkn, hkf, hkmin⟩ := divStep_some hm1 hstep
    subst ha
    have hba : b / a = k := by
      rw [hb]
      exact Nat.mul_div_cancel_left k (by omega)
    rw [hba]
    refine ⟨⟨hm1, by omega, hne, hk2, hkn, hkf⟩, hb, ?_⟩
    intro m' k' hf'
    obtain ⟨h1', h2', h3', h4', h5', h6'⟩ := hf'
    rcases Nat.lt_trichotomy a m' with hlt | heq | hgt
    · exact Or.inl hlt
    · subst heq
      refine Or.inr ⟨rfl, ?_⟩
      by_contra hk
      push_neg at hk
      exact h6' (hkmin k' h4' (by omega))
    · exfalso
      have hstep' : divStep seq (seq.length - 1) m' = none := hearlier m' h1' hgt
      exact h6' (divStep_none h1' hstep' k' h4' h5' h3')

/-- C2: `check_divisibility` is satisfied exactly when no tested pair
`(m, m*k)` (with `1 ≤ m ≤ n`, `seq[m] ≠ 0`, `2 ≤ k`, `m*k ≤ n`) fails the
mod test; the counterexample is present iff unsatisfied; and a reported
counterexample `(a, b)` is a failing pair that is first in the scan order
(outer `m` ascending, inner `k` ascending). -/
theorem C2_check_divisibility_spec (seq : List Int) :
    ((check_divisibility seq).1 = true ↔ ∀ m k, ¬ divFails seq (seq.length - 1) m k) ∧
    ((check_divisibility seq).1 = true ↔ (check_divisibility seq).2 = none) ∧
    (∀ a b, (check_divisibility seq).2 = some (a, b) →
      divFails seq (seq.length - 1) a (b / a) ∧ b = a * (b / a) ∧
        ∀ m' k', divFails seq (seq.length - 1) m' k' →
          a < m' ∨ (a = m' ∧ b / a ≤ k')) :=
  ⟨check_div_true_iff seq, check_div_shape seq,
    fun a b h => check_div_some_spec seq a b h⟩

/-- Witness for C2 on the Lucas prefix `[2, 1, 3, 4, 7]`: the reported
counterexample `(2, 4)` is a failing pair. -/
theorem C2_witness : divFails [2, 1, 3, 4, 7] 4 2 (4 / 2) :=
  ((C2_check_divisibility_spec [2, 1, 3, 4, 7]).2.2 2 4 (by decide)).1

/-! ### Characterisation of `check_strong_divisibility` -/

lemma strongInner_eq_find (seq : List Int) (m : Nat) :
    ∀ ks : List Nat,
      strongInner seq m ks = (ks.find? (strongTest seq m)).map (fun k => (m, k)) := by
  intro ks
  induction ks with
  | nil => rfl
  | cons k rest ih =>
    rw [strongInner]
    by_cases hf : Int.gcd (seq.getD m 0) (seq.getD k 0) ≠ (seq.getD (Nat.gcd m k) 0).natAbs
    · rw [if_pos hf, List.find?_cons_of_pos _ (by simpa [strongTest] using hf)]
      rfl
    · rw [if_neg hf, List.find?_cons_of_neg _ (by simpa [strongTest] using hf)]
      exact ih

lemma strongOuter_eq_firstHit (seq : List Int) (n : Nat) :
    ∀ ms : List Nat, strongOuter seq n ms = firstHit (strongStep seq n) ms := by
  intro ms
  induction ms with
  | nil => rfl
  | cons m rest ih =>
    rw [strongOuter, firstHit,
      show strongInner seq m (List.range' (m + 1) (n + 1 - (m + 1))) = strongStep seq n m
        from rfl]
    cases hin : strongStep seq n m with
    | some p => rfl
    | none => exact ih

lemma mem_range'_strong_iff {n m k : Nat} :
    k ∈ List.range' (m + 1) (n + 1 - (m + 1)) ↔ m < k ∧ k ≤ n := by
  rw [mem_range'_iff]
  omega

lemma strongStep_none {seq : List Int} {n m : Nat}
    (h : strongStep seq n m = none) :
    ∀ k, m < k → k ≤ n →
      Int.gcd (seq.getD m 0) (seq.getD k 0) = (seq.getD (Nat.gcd m k) 0).natAbs := by
  intro k hmk hkn
  unfold strongStep at h
  rw [strongInner_eq_find] at h
  have hfind : (List.range' (m + 1) (n + 1 - (m + 1))).find? (strongTest seq m) = none := by
    cases hf : (List.range' (m + 1) (n + 1 - (m + 1))).find? (strongTest seq m) with
    | none => rfl
    | some k' => rw [hf] at h; exact absurd h (by simp)
  have := List.find?_eq_none.mp hfind k (mem_range'_strong_iff.mpr ⟨hmk, hkn⟩)
  simpa [strongTest] using this

lemma strongStep_some {seq : List Int} {n m : Nat} {a b : Nat}
    (h : strongStep seq n m = some (a, b)) :
    a = m ∧ m < b ∧ b ≤ n ∧
      Int.gcd (seq.getD m 0) (seq.getD b 0) ≠ (seq.getD (Nat.gcd m b) 0).natAbs ∧
      ∀ k', m < k' → k' < b →
        Int.gcd (seq.getD m 0) (seq.getD k' 0) = (seq.getD (Nat.gcd m k') 0).natAbs := by
  unfold strongStep at h
  rw [strongInner_eq_find] at h
  cases hf : (List.range' (m + 1) (n + 1 - (m + 1))).find? (strongTest seq m) with
  | none => rw [hf] at h; exact absurd h (by simp)
  | some k =>
    rw [hf] at h
    obtain ⟨ha, hb⟩ : m = a ∧ k = b := by
      have := Option.some.inj h
      exact ⟨congrArg Prod.fst this, congrArg Prod.snd this⟩
    subst ha
    subst hb
    obtain ⟨h1, h2, h3, h4⟩ := find?_range'_eq_some hf
    refine ⟨rfl, by omega, by omega, by simpa [strongTest] using h1, ?_⟩
    intro k' hk'1 hk'2
    have := h4 k' (by omega) hk'2
    simpa [strongTest] using this

lemma check_strong_eq (seq : List Int) :
    check_strong_divisibility seq =
      match strongOuter seq (seq.length - 1) (List.range' 1 (seq.length - 1)) with
      | some p => (false, some p)
      | none => (true, none) := rfl

lemma check_strong_true_iff (seq : List Int) :
    (check_strong_divisibility seq).1 = true ↔
      ∀ m k, ¬ strongFails seq (seq.length - 1) m k := by
  rw [check_strong_eq]
  cases ho : strongOuter seq (seq.length - 1) (List.range' 1 (seq.length - 1)) with
  | none =>
    constructor
    · intro _ m k hf
      obtain ⟨h1, h2, h3, h4⟩ := hf
      have hfh : firstHit (strongStep seq (seq.length - 1))
          (List.range' 1 (seq.length - 1)) = none := by
        rw [← strongOuter_eq_firstHit]
        exact ho
      have hstep : strongStep seq (seq.length - 1) m = none :=
        firstHit_range'_none hfh m h1 (by omega)
      exact h4 (strongStep_none hstep k h2 h3)
    · intro _
      rfl
  | some p =>
    obtain ⟨a, b⟩ := p
    constructor
    · intro hfalse
      exact absurd (show false = true from hfalse) (by simp)
    · intro hall
      exfalso
      have hfh : firstHit (strongStep seq (seq.length - 1))
          (List.range' 1 (seq.length - 1)) = some (a, b) := by
        rw [← strongOuter_eq_firstHit]
        exact ho
      obtain ⟨m, hm1, hm2, hstep, _⟩ := firstHit_range'_some hfh
      obtain ⟨ha, hb1, hb2, hbf, _⟩ := strongStep_some hstep
      exact hall m b ⟨hm1, hb1, hb2, hbf⟩

lemma check_strong_shape (seq : List Int) :
    (check_strong_divisibility seq).1 = true ↔
      (check_strong_divisibility seq).2 = none := by
  rw [check_strong_eq]
  cases ho : strongOuter seq (seq.length - 1) (List.range' 1 (seq.length - 1)) with
  | none => exact Iff.intro (fun _ => rfl) (fun _ => rfl)
  | some p =>
    exact Iff.intro (fun h => absurd (show false = true from h) (by simp))
      (fun h => absurd (show some p = none from h) (by simp))

lemma check_strong_some_spec (seq : List Int) (a b : Nat)
    (h : (check_strong_divisibility seq).2 = some (a, b)) :
    strongFails seq (seq.length - 1) a b ∧
      ∀ m' k', strongFails seq (seq.length - 1) m' k' →
        a < m' ∨ (a = m' ∧ b ≤ k') := by
  rw [check_strong_eq] at h
  cases ho : strongOuter seq (seq.length - 1) (List.range' 1 (seq.length - 1)) with
  | none =>
    rw [ho] at h
    exact absurd (show (none : Option (Nat × Nat)) = some (a, b) from h) (by simp)
  | some p =>
    rw [ho] at h
    have h' : some p = some (a, b) := h
    obtain rfl := Option.some.inj h'
    have hfh : firstHit (strongStep seq (seq.length - 1))
        (List.range' 1 (seq.length - 1)) = some (a, b) := by
      rw [← strongOuter_eq_firstHit]
      exact ho
    obtain ⟨m, hm1, hm2, hstep, hearlier⟩ := firstHit_range'_some hfh
    obtain ⟨ha, hb1, hb2, hbf, hbmin⟩ := strongStep_some hstep
    subst ha
    refine ⟨⟨hm1, hb1, hb2, hbf⟩, ?_⟩
    intro m' k' hf'
    obtain ⟨h1', h2', h3', h4'⟩ := hf'
    rcases Nat.lt_trichotomy a m' with hlt | heq | hgt
    · exact Or.inl hlt
    · subst heq
      refine Or.inr ⟨rfl, ?_⟩
      by_contra hk
      push_neg at hk
      exact h4' (hbmin k' h2' (by omega))
    · exfalso
      have hstep' : strongStep seq (seq.length - 1) m' = none := hearlier m' h1' hgt
      exact h4' (strongStep_none hstep' k' h2' h3')

lemma gcd_eq_neg_not_strongFails (seq : List Int) (n m k : Nat)
    (h : (Int.gcd (seq.getD m 0) (seq.getD k 0) : Int) = -(seq.getD (Nat.gcd m k) 0)) :
    ¬ strongFails seq n m k := by
  intro hf
  apply hf.2.2.2
  have hc : seq.getD (Nat.gcd m k) 0 =
      -(Int.gcd (seq.getD m 0) (seq.getD k 0) : Int) := by omega
  rw [hc, Int.natAbs_neg, Int.natAbs_ofNat]

/-- C3: `check_strong_divisibility` is satisfied exactly when every pair
`1 ≤ m < k ≤ n` has `gcd(seq[m], seq[k]) = |seq[gcd(m,k)]|`; the
counterexample is present iff unsatisfied, and is the first failing pair
in scan order (`m` ascending, then `k` ascending from `m+1`); a pair
whose term-gcd equals the *negative* of `seq[gcd(m,k)]` is not a
failure. -/
theorem C3_check_strong_divisibility_spec (seq : List Int) :
    ((check_strong_divisibility seq).1 = true ↔
      ∀ m k, ¬ strongFails seq (seq.length - 1) m k) ∧
    ((check_strong_divisibility seq).1 = true ↔
      (check_strong_divisibility seq).2 = none) ∧
    (∀ a b, (check_strong_divisibility seq).2 = some (a, b) →
      strongFails seq (seq.length - 1) a b ∧
        ∀ m' k', strongFails seq (seq.length - 1) m' k' →
          a < m' ∨ (a = m' ∧ b ≤ k')) ∧
    (∀ m k,
      (Int.gcd (seq.getD m 0) (seq.getD k 0) : Int) = -(seq.getD (Nat.gcd m k) 0) →
      ¬ strongFails seq (seq.length - 1) m k) :=
  ⟨check_strong_true_iff seq, check_strong_shape seq,
    fun a b h => check_strong_some_spec seq a b h,
    fun m k h => gcd_eq_neg_not_strongFails seq (seq.length - 1) m k h⟩

/-- Witness for C3 on `[1, 2, 3]`: the reported counterexample `(1, 2)`
is a failing pair (`gcd(2, 3) = 1 ≠ 2 = |seq[1]|`). -/
theorem C3_witness : strongFails [1, 2, 3] 2 1 2 :=
  ((C3_check_strong_divisibility_spec [1, 2, 3]).2.2.1 1 2 (by decide)).1

/-! ### Safety of the zero-term skip (C4) -/

lemma innerScanE_ok (seq : List Int) (n m : Nat) (hne : seq.getD m 0 ≠ 0) :
    ∀ ks : List Nat, innerScanE seq n m ks = Except.ok (innerScan seq n m ks) := by
  intro ks
  induction ks with
  | nil => rfl
  | cons k rest ih =>
    rw [innerScanE, innerScan]
    by_cases hlt : n < m * k
    · rw [if_pos hlt, if_pos hlt]
    · rw [if_neg hlt, if_neg hlt, show pymodE (seq.getD (m * k) 0) (seq.getD m 0) =
        Except.ok ((seq.getD (m * k) 0).fmod (seq.getD m 0)) from by
          rw [pymodE, if_neg hne]]
      by_cases hf : (seq.getD (m * k) 0).fmod (seq.getD m 0) ≠ 0
      · rw [if_pos hf]
        exact if_pos hf
      · rw [if_neg hf]
        exact (if_neg hf).trans ih

lemma outerScanE_ok (seq : List Int) (n : Nat) :
    ∀ ms : List Nat, outerScanE seq n ms = Except.ok (outerScan seq n ms) := by
  intro ms
  induction ms with
  | nil => rfl
  | cons m rest ih =>
    rw [outerScanE, outerScan]
    by_cases h0 : seq.getD m 0 = 0
    · rw [if_pos h0, if_pos h0]
      exact ih
    · rw [if_neg h0, if_neg h0, innerScanE_ok seq n m h0]
      cases hin : innerScan seq n m (List.range' 2 (n / m + 1 - 2)) with
      | some p => rfl
      | none => exact ih

lemma check_divE_ok (seq : List Int) :
    check_divisibilityE seq = Except.ok (check_divisibility seq) := by
  rw [check_divisibilityE, check_div_eq, outerScanE_ok]
  cases ho : outerScan seq (seq.length - 1) (List.range' 1 (seq.length - 1)) with
  | some p => rfl
  | none => rfl

/-- C4: for a sequence with a zero term at index `m > 0`, the divisibility
check never divides by that term: the instrumented checker (which errors
exactly where Python would raise `ZeroDivisionError`) returns `ok` with
the same result, and index `m` is never reported as the divisor of a
counterexample. -/
theorem C4_zero_skip_safe (seq : List Int) (m : Nat) (_hm : 0 < m)
    (h0 : seq.getD m 0 = 0) :
    check_divisibilityE seq = Except.ok (check_divisibility seq) ∧
      ∀ idx, (check_divisibility seq).2 ≠ some (m, idx) := by
  refine ⟨check_divE_ok seq, fun idx hc => ?_⟩
  obtain ⟨hfail, _, _⟩ := check_div_some_spec seq m idx hc
  exact hfail.2.2.1 h0

/-- Witness for C4 on `[1, 1, 0, 3, 5, 9]` (zero term at index 2): the
checker is total and never blames index 2. -/
theorem C4_witness :
    check_divisibilityE [1, 1, 0, 3, 5, 9] =
        Except.ok (check_divisibility [1, 1, 0, 3, 5, 9]) ∧
      (check_divisibility [1, 1, 0, 3, 5, 9]).2 ≠ some (2, 4) :=
  ⟨(C4_zero_skip_safe [1, 1, 0, 3, 5, 9] 2 (by decide) (by decide)).1,
    (C4_zero_skip_safe [1, 1, 0, 3, 5, 9] 2 (by decide) (by decide)).2 4⟩

/-! ### Concrete runs: Fibonacci and Lucas (C5, C6) -/

/-- C5: the Fibonacci run `P=1, Q=-1, x0=0, x1=1` over indices `0..20`
satisfies both checks with no counterexample. -/
theorem C5_fibonacci_satisfies_both :
    check_divisibility (generate_sequence 1 (-1) 0 1 20) = (true, none) ∧
      check_strong_divisibility (generate_sequence 1 (-1) 0 1 20) = (true, none) := by
  constructor
  · decide
  · decide

/-- C6: the Lucas run `P=1, Q=-1, x0=2, x1=1` over indices `0..20` fails
the divisibility check; the first failing pair reported is `(2, 4)`
(`L_2 = 3` does not divide `L_4 = 7`). -/
theorem C6_lucas_fails_divisibility :
    check_divisibility (generate_sequence 1 (-1) 2 1 20) = (false, some (2, 4)) := by
  decide

/-! ### Strong divisibility implies divisibility over the tested prefix (C7) -/

lemma int_fmod_eq_zero_iff_dvd (a b : Int) : b.fmod a = 0 ↔ a ∣ b := by
  constructor
  · intro h
    have hd := Int.fmod_add_fdiv b a
    exact ⟨b.fdiv a, by omega⟩
  · rintro ⟨c, rfl⟩
    exact Int.mul_fmod_right a c

lemma strong_all_implies_div_all (seq : List Int)
    (hstrong : ∀ m k, ¬ strongFails seq (seq.length - 1) m k) :
    ∀ m k, ¬ divFails seq (seq.length - 1) m k := by
  intro m k hf
  obtain ⟨h1, h2, h3, h4, h5, h6⟩ := hf
  have hmlt : m < m * k := by
    have := Nat.mul_le_mul_left m h4
    omega
  have hgcd : Int.gcd (seq.getD m 0) (seq.getD (m * k) 0) =
      (seq.getD (Nat.gcd m (m * k)) 0).natAbs := by
    by_contra hne
    exact hstrong m (m * k) ⟨h1, hmlt, h5, hne⟩
  rw [Nat.gcd_eq_left (dvd_mul_right m k)] at hgcd
  have hdvd : (seq.getD m 0).natAbs ∣ (seq.getD (m * k) 0).natAbs := by
    rw [← hgcd]
    exact Nat.gcd_dvd_right _ _
  exact h6 ((int_fmod_eq_zero_iff_dvd _ _).mpr (Int.natAbs_dvd_natAbs.mp hdvd))

/-- C7: whenever the strong-divisibility check is satisfied over a
sequence, the plain divisibility check over the same sequence is
satisfied as well, even though the two scans are computed
independently. -/
theorem C7_strong_implies_div (seq : List Int)
    (h : (check_strong_divisibility seq).1 = true) :
    (check_divisibility seq).1 = true := by
  rw [check_div_true_iff]
  exact strong_all_implies_div_all seq ((check_strong_true_iff seq).mp h)

/-- Witness for C7 on the Fibonacci prefix `[0, 1, 1, 2]`. -/
theorem C7_witness : (check_divisibility [0, 1, 1, 2]).1 = true :=
  C7_strong_implies_div [0, 1, 1, 2] (by decide)

/-! ### Boundary behaviour (C8) -/

/-- C8: both checkers report `satisfied = true` with no counterexample on
every sequence of length at most 1, and in particular on
`generate_sequence` with `n = -1` (empty) or `n = 0` (`[x0]`). -/
theorem C8_boundary :
    (∀ seq : List Int, seq.length ≤ 1 →
      check_divisibility seq = (true, none) ∧
        check_strong_divisibility seq = (true, none)) ∧
    (∀ P Q x0 x1 n : Int, -1 ≤ n → n ≤ 0 →
      (n = -1 → generate_sequence P Q x0 x1 n = []) ∧
      (n = 0 → generate_sequence P Q x0 x1 n = [x0]) ∧
      check_divisibility (generate_sequence P Q x0 x1 n) = (true, none) ∧
      check_strong_divisibility (generate_sequence P Q x0 x1 n) = (true, none)) := by
  have hshort : ∀ seq : List Int, seq.length ≤ 1 →
      check_divisibility seq = (true, none) ∧
        check_strong_divisibility seq = (true, none) := by
    intro seq hlen
    have hn : seq.length - 1 = 0 := by omega
    constructor
    · rw [check_div_eq, hn]
      rfl
    · rw [check_strong_eq, hn]
      rfl
  refine ⟨hshort, fun P Q x0 x1 n hn1 hn2 => ?_⟩
  rcases (by omega : n = -1 ∨ n = 0) with rfl | rfl
  · have hg : generate_sequence P Q x0 x1 (-1) = [] := by
      rw [generate_sequence, if_pos (by norm_num)]
    have hc := hshort (generate_sequence P Q x0 x1 (-1)) (by rw [hg]; simp)
    exact ⟨fun _ => hg, fun h => absurd h (by norm_num), hc.1, hc.2⟩
  · have hg : generate_sequence P Q x0 x1 0 = [x0] := by
      rw [generate_sequence, if_neg (by norm_num), if_pos rfl]
    have hc := hshort (generate_sequence P Q x0 x1 0) (by rw [hg]; simp)
    exact ⟨fun h => absurd h (by norm_num), fun _ => hg, hc.1, hc.2⟩

/-- Witness for C8 at `n = -1` and `n = 0` with arbitrary concrete
parameters. -/
theorem C8_witness :
    check_divisibility (generate_sequence 3 5 7 9 (-1)) = (true, none) ∧
      check_strong_divisibility (generate_sequence 2 4 6 8 0) = (true, none) :=
  ⟨(C8_boundary.2 3 5 7 9 (-1) (by norm_num) (by norm_num)).2.2.1,
    (C8_boundary.2 2 4 6 8 0 (by norm_num) (by norm_num)).2.2.2⟩

/-! ### The early-exit branch of the inner scan is dead (C10) -/

lemma innerScan_eq_NB (seq : List Int) (n m : Nat) :
    ∀ ks : List Nat, (∀ k ∈ ks, m * k ≤ n) →
      innerScan seq n m ks = innerScanNB seq m ks := by
  intro ks
  induction ks with
  | nil => intro _; rfl
  | cons k rest ih =>
    intro h
    rw [innerScan, innerScanNB, if_neg (Nat.not_lt.mpr (h k (by simp)))]
    by_cases hf : (seq.getD (m * k) 0).fmod (seq.getD m 0) ≠ 0
    · rw [if_pos hf, if_pos hf]
    · rw [if_neg hf, if_neg hf]
      exact ih (fun k' hk' => h k' (by simp [hk']))

/-- C10: every multiple index `idx = m*k` the inner loop tests satisfies
`idx ≤ n` (since `k ≤ n / m`), hence is a valid index into the sequence,
and the `idx > n` early-exit branch is never taken: the inner scan on the
list the checker actually passes equals the same scan with the branch
removed. -/
theorem C10_inner_indices_in_bounds (seq : List Int) (m k : Nat)
    (h1 : 1 ≤ m) (h2 : m ≤ seq.length - 1) (_h3 : 2 ≤ k)
    (h4 : k ≤ (seq.length - 1) / m) :
    m * k ≤ seq.length - 1 ∧ m * k < seq.length ∧ m < seq.length ∧
      innerScan seq (seq.length - 1) m
          (List.range' 2 ((seq.length - 1) / m + 1 - 2)) =
        innerScanNB seq m (List.range' 2 ((seq.length - 1) / m + 1 - 2)) := by
  have hmk : m * k ≤ seq.length - 1 := (le_div_iff_mul_le' h1).mp h4
  exact ⟨hmk, by omega, by omega,
    innerScan_eq_NB seq (seq.length - 1) m _ (range'_div_bound h1)⟩

/-- Witness for C10 on the Fibonacci prefix `[0, 1, 1, 2, 3, 5]` with
`m = 2`, `k = 2`. -/
theorem C10_witness :
    2 * 2 ≤ 5 ∧ 2 * 2 < 6 ∧ 2 < 6 ∧
      innerScan [0, 1, 1, 2, 3, 5] 5 2 (List.range' 2 (5 / 2 + 1 - 2)) =
        innerScanNB [0, 1, 1, 2, 3, 5] 2 (List.range' 2 (5 / 2 + 1 - 2)) :=
  C10_inner_indices_in_bounds [0, 1, 1, 2, 3, 5] 2 2 (by decide) (by decide)
    (by decide) (by decide)

end DivSeq
